import Mathlib

/-!
Shallow embedding of the ocrex core (src/ocrex) for checking the
natural-language specification against the code.

The embedding models:
 - the Python string operations used for file naming
   (`str.replace`, `str.lower().endswith`, `os.path.basename`, `os.path.join`);
 - the per-page preprocessing pipeline of `preprocessor.py`
   (`detect_rotation`, `rotate_image`, `_process_single_image`);
 - the utilities of `utils.py` (`pdf_to_images`, `images_to_pdf`,
   `cleanup_temp_files`);
 - the per-document driver `process_file` and the batch loop of `main.py`.

External collaborators (Tesseract OSD, OpenCV image IO, Canny/Hough,
minAreaRect, pdf2image, Pillow, ocrmypdf) are modelled at their interface
boundary by explicit inputs in `PageSpec`/`Env`: the outcome each external
call reports for a given page or document.  File-system effects are made
explicit: each modelled function returns the list of paths it opens for
writing, and the runner returns the lists of written and deleted paths.
Fresh temporary-file names produced by `tempfile.NamedTemporaryFile` are
modelled by constructors indexed by the page number, which keeps the
uniqueness that the OS guarantees.
-/

namespace Ocrex

/-- Python strings, modelled as lists of characters. -/
abbrev Chars := List Char

/-- The literal `".pdf"`. -/
def pdfExt : Chars := ['.', 'p', 'd', 'f']

/-- The literal `"_ocr.pdf"` used in `main.process_file`. -/
def ocrRep : Chars := "_ocr.pdf".toList

/-- The literal `"_preprocessed.pdf"` used in `main.process_file`. -/
def preRep : Chars := "_preprocessed.pdf".toList

/-- Python `s.replace(".pdf", rep)`: replace every non-overlapping
occurrence of `".pdf"` in `s`, scanning left to right. -/
def replacePdf (rep : Chars) : Chars → Chars
  | [] => []
  | [a] => [a]
  | [a, b] => [a, b]
  | [a, b, c] => [a, b, c]
  | a :: b :: c :: d :: rest =>
    if a = '.' ∧ b = 'p' ∧ c = 'd' ∧ d = 'f' then rep ++ replacePdf rep rest
    else a :: replacePdf rep (b :: c :: d :: rest)

/-- `".pdf"` occurs somewhere in `s` (as a case-sensitive substring). -/
def containsPdf : Chars → Bool
  | [] => false
  | [_] => false
  | [_, _] => false
  | [_, _, _] => false
  | a :: b :: c :: d :: rest =>
    (if a = '.' ∧ b = 'p' ∧ c = 'd' ∧ d = 'f' then true else false)
      || containsPdf (b :: c :: d :: rest)

/-- Python `s.lower()` (restricted to the ASCII case folding used here). -/
def lowerChars (s : Chars) : Chars := s.map Char.toLower

/-- `main.main` line 179: a directory entry is an eligible document iff
`f.lower().endswith(".pdf")`. -/
def eligible (f : Chars) : Bool := decide (pdfExt <:+ lowerChars f)

/-- `os.path.basename`: the part of the path after the last slash. -/
def basename (p : Chars) : Chars := (p.reverse.takeWhile (fun c => c ≠ '/')).reverse

/-- `os.path.join dir f` for a relative `f`. -/
def joinPath (d f : Chars) : Chars := d ++ '/' :: f

/-- File-system paths touched by a run.  `real` is an ordinary named path;
the three temp constructors stand for the unique names handed out by
`tempfile.NamedTemporaryFile` at the three creation sites (rasterized page
`i`, rotated page `i`, preprocessed page `i`). -/
inductive P where
  | real (s : Chars)
  | rasterTmp (i : Nat)
  | rotTmp (i : Nat)
  | procTmp (i : Nat)
deriving DecidableEq

/-- What `pytesseract.image_to_osd` does on a given page: raise, succeed
without a `Rotate:` line, or succeed reporting `Rotate: r`. -/
inductive OsdOut where
  | fail
  | noRot
  | rot (r : Int)
deriving DecidableEq

/-- Interface-boundary description of one rasterized page: the outcomes the
external imaging calls report for it. -/
structure PageSpec where
  /-- outcome of the Tesseract OSD call in `detect_rotation`. -/
  osd : OsdOut
  /-- `cv2.imread(path, IMREAD_GRAYSCALE)` succeeds in the fallback. -/
  grayLoad : Bool
  /-- the line angles (in degrees) collected from `cv2.HoughLines`;
  `[]` when `lines is None`. -/
  houghAngles : List ℚ
  /-- `cv2.imread(path)` / `cv2.imread(path, IMREAD_COLOR)` succeeds on the
  original page file. -/
  colorLoad : Bool
  /-- `np.where(gray > 0)` finds at least one foreground pixel. -/
  hasForeground : Bool
  /-- the angle `cv2.minAreaRect(coords)[-1]` reports. -/
  rectAngle : ℚ
deriving DecidableEq

/-- `np.median` on a list of rationals: sort; middle element for odd
length, mean of the two middle elements for even length. -/
def npMedian (l : List ℚ) : ℚ :=
  let s := l.insertionSort (fun a b => a ≤ b)
  let n := l.length
  if n % 2 = 1 then s.getD (n / 2) 0
  else (s.getD (n / 2 - 1) 0 + s.getD (n / 2) 0) / 2

/-- The band filter of `preprocessor.detect_rotation` lines 54-56: keep
angles strictly inside (80,100) or (260,280). -/
def bandFilter (angles : List ℚ) : List ℚ :=
  angles.filter (fun a => (80 < a ∧ a < 100) ∨ (260 < a ∧ a < 280))

/-- `preprocessor.detect_rotation`: Tesseract OSD primary path with the
OpenCV line-detection fallback.  Returns the rotation angle to apply. -/
def detect_rotation (p : PageSpec) : Int :=
  match p.osd with
  | OsdOut.rot r => (360 - r) % 360
  | OsdOut.noRot => 0
  | OsdOut.fail =>
    if p.grayLoad then
      let angles := bandFilter p.houghAngles
      if angles ≠ [] then
        let m := npMedian angles
        if 85 ≤ m ∧ m ≤ 95 then 90
        else if 175 ≤ m ∧ m ≤ 185 then 180
        else if 265 ≤ m ∧ m ≤ 275 then 270
        else 0
      else 0
    else 0

/-- `preprocessor.rotate_image` on the file `orig` holding page `i`:
returns the resulting path and the list of files written.  Angle 0 is a
no-op; a failed `imread` or an angle outside {90,180,270} logs and returns
the original path; otherwise a rotated copy is written to a fresh temp
file. -/
def rotate_image (orig : P) (i : Nat) (angle : Int) (colorLoad : Bool) :
    P × List P :=
  if angle = 0 then (orig, [])
  else if colorLoad = false then (orig, [])
  else if angle = 90 ∨ angle = 180 ∨ angle = 270 then (P.rotTmp i, [P.rotTmp i])
  else (orig, [])

/-- Pixel-level transformations applied by the pipeline, as a term
recording provenance: each OpenCV operation is a constructor. -/
inductive Img where
  | loaded (path : P)
  | gray (i : Img)
  | denoised (i : Img) (h tw sw : Nat)
  | warped (i : Img) (theta : ℚ)
deriving DecidableEq

/-- The pipeline stages of `_process_single_image`, in execution order. -/
inductive Stage where
  | sAutoRotate
  | sGrayscale
  | sDenoise
  | sDeskew
  | sPersist
deriving DecidableEq

/-- The exception raised by `_process_single_image` line 111:
`ValueError(f"[Preprocessing] Cannot load image {image_path}")`.  Its only
payload is the image path in the message. -/
inductive PageErr where
  | cannotLoad (path : P)
deriving DecidableEq

/-- The angle normalization of `_process_single_image` line 121:
`angle = -(90 + angle) if angle < -45 else -angle`. -/
def deskewAngleOf (a : ℚ) : ℚ := if a < -45 then -(90 + a) else -a

/-- The deskew block of `_process_single_image` lines 117-131: if any
foreground pixel exists, rotate by the normalized minimum-area-rectangle
angle (cubic interpolation, replicated borders); otherwise leave the
image untouched. -/
def deskewStage (g : Img) (p : PageSpec) : Img :=
  if p.hasForeground then Img.warped g (deskewAngleOf p.rectAngle) else g

/-- `preprocessor._process_single_image` on the file `orig` holding page
`i`.  Returns the list of files written, and either the page error raised
or the processed path, final image term, and the stage trace in execution
order. -/
def process_single_image (orig : P) (i : Nat) (p : PageSpec)
    (deskew denoise auto_rotate : Bool) :
    List P × Except PageErr (P × Img × List Stage) :=
  let step1 : P × List P × List Stage :=
    if auto_rotate then
      let ang := detect_rotation p
      let r := rotate_image orig i ang p.colorLoad
      (r.1, r.2, [Stage.sAutoRotate])
    else (orig, [], [])
  let path1 := step1.1
  let loadable : Bool := if path1 = P.rotTmp i then true else p.colorLoad
  if loadable then
    let g := Img.gray (Img.loaded path1)
    let g2 := if denoise then Img.denoised g 30 7 21 else g
    let g3 := if deskew then deskewStage g2 p else g2
    (step1.2.1 ++ [P.procTmp i],
     Except.ok (P.procTmp i, g3,
       step1.2.2 ++ [Stage.sGrayscale]
         ++ (if denoise then [Stage.sDenoise] else [])
         ++ (if deskew then [Stage.sDeskew] else [])
         ++ [Stage.sPersist]))
  else
    (step1.2.1, Except.error (PageErr.cannotLoad path1))

/-- `preprocessor.preprocess_image`: thin wrapper over
`_process_single_image`. -/
def preprocess_image (orig : P) (i : Nat) (p : PageSpec)
    (deskew denoise auto_rotate : Bool) :
    List P × Except PageErr (P × Img × List Stage) :=
  process_single_image orig i p deskew denoise auto_rotate

/-- `utils.pdf_to_images`: one fresh temp PNG per page. -/
def pdf_to_images (n : Nat) : List P := (List.range n).map P.rasterTmp

/-- The error raised by `utils.images_to_pdf` (a `ValueError` wrapped into
`RuntimeError`). -/
inductive AssemblyErr where
  | noImages
  | noValidImages
deriving DecidableEq

/-- `utils.images_to_pdf`: returns the list of files written and the error
raised, if any.  The output file is written only after both emptiness
checks pass. -/
def images_to_pdf (imagePaths : List P) (decodable : P → Bool) (outPath : P) :
    List P × Option AssemblyErr :=
  if imagePaths.isEmpty then ([], some AssemblyErr.noImages)
  else if (imagePaths.filter decodable).isEmpty then
    ([], some AssemblyErr.noValidImages)
  else ([outPath], none)

/-- `utils.cleanup_temp_files`: best-effort removal of every listed path;
returns the paths removed. -/
def cleanup_temp_files (filePaths : List P) : List P := filePaths

/-- The configuration fields of `config.Config` that `process_file` reads. -/
structure Config where
  output_dir : Chars
  enable_preprocessing : Bool
  deskew : Bool
  denoise : Bool
deriving DecidableEq

/-- Interface-boundary description of one document: whether
`pdf2image.convert_from_path` succeeds, the per-page external outcomes, and
whether `ocrmypdf.ocr` succeeds. -/
structure Env where
  rasterOk : Bool
  pages : List PageSpec
  ocrOk : Bool

/-- The page loop of `main.process_file` lines 41-49, processing the pages
of `pdf_to_images` sequentially from page index `i`.  Returns
(files written, accumulated `temp_files` entries, page error raised if
any, `preprocessed_images`).  On a raised page error the loop stops and
`temp_files` additions are discarded with the local state, exactly as the
exception unwinds in the source. -/
def pageLoop : List PageSpec → Nat → Bool → Bool →
    List P × List P × Option PageErr × List P
  | [], _, _, _ => ([], [], none, [])
  | p :: rest, i, dk, dn =>
    let r := process_single_image (P.rasterTmp i) i p dk dn true
    match r.2 with
    | Except.error e => (r.1, [], some e, [])
    | Except.ok res =>
      let t := pageLoop rest (i + 1) dk dn
      (r.1 ++ t.1, res.1 :: P.rasterTmp i :: t.2.1, t.2.2.1, res.1 :: t.2.2.2)

/-- Observable outcome of one `main.process_file` call: the intermediate
artifact files written (temp pages, rotated pages, processed pages, the
intermediate preprocessed document), the final OCR output written if any,
the files deleted by cleanup, the page error raised if any, the document
named in the error-branch log line, and whether the call completed without
an exception. -/
structure RunResult where
  writes : List P
  output : Option P
  deletes : List P
  pageError : Option PageErr
  failedDoc : Option Chars
  success : Bool
deriving DecidableEq

/-- `main.process_file pdf_file config` under external outcomes `env`.
Every exception is caught by the enclosing `try`/`except`, which logs the
document and returns without cleanup. -/
def process_file (pdf_file : Chars) (cfg : Config) (env : Env) : RunResult :=
  let output_pdf := P.real (joinPath cfg.output_dir (replacePdf ocrRep (basename pdf_file)))
  if cfg.enable_preprocessing then
    if env.rasterOk = false then
      { writes := [], output := none, deletes := [], pageError := none,
        failedDoc := some pdf_file, success := false }
    else
      let rasterWrites := pdf_to_images env.pages.length
      let loop := pageLoop env.pages 0 cfg.deskew cfg.denoise
      match loop.2.2.1 with
      | some e =>
        { writes := rasterWrites ++ loop.1, output := none, deletes := [],
          pageError := some e, failedDoc := some pdf_file, success := false }
      | none =>
        let preprocessed_pdf := P.real (replacePdf preRep pdf_file)
        let asm := images_to_pdf loop.2.2.2 (fun _ => true) preprocessed_pdf
        match asm.2 with
        | some _ =>
          { writes := rasterWrites ++ loop.1 ++ asm.1, output := none,
            deletes := [], pageError := none, failedDoc := some pdf_file,
            success := false }
        | none =>
          let temp_files := loop.2.1 ++ [preprocessed_pdf]
          if env.ocrOk then
            { writes := rasterWrites ++ loop.1 ++ asm.1, output := some output_pdf,
              deletes := cleanup_temp_files temp_files, pageError := none,
              failedDoc := none, success := true }
          else
            { writes := rasterWrites ++ loop.1 ++ asm.1, output := none,
              deletes := [], pageError := none, failedDoc := some pdf_file,
              success := false }
  else
    if env.ocrOk then
      { writes := [], output := some output_pdf, deletes := cleanup_temp_files [],
        pageError := none, failedDoc := none, success := true }
    else
      { writes := [], output := none, deletes := [], pageError := none,
        failedDoc := some pdf_file, success := false }

/-- One submitted document: its path and its external outcomes. -/
structure DocJob where
  name : Chars
  env : Env

/-- Aggregate view of the batch section of `main.main` lines 194-206:
tasks are submitted for every discovered document; the driver waits for
each result in turn and advances the progress bar once per task, whether
the task succeeded or failed (failures are swallowed inside
`process_file`).  Returns (progress units advanced, successful outputs,
logged failures). -/
def runBatch (jobs : List DocJob) (cfg : Config) : Nat × Nat × Nat :=
  match jobs with
  | [] => (0, 0, 0)
  | j :: rest =>
    let r := process_file j.name cfg j.env
    let t := runBatch rest cfg
    (t.1 + 1,
     (if r.success then 1 else 0) + t.2.1,
     (if r.success then 0 else 1) + t.2.2)

/-! ### The stage order as the specification words it (for claim C2) -/

/-- The per-page stage order asserted by the specification: grayscale
conversion first, then optional orientation detection with coarse
rotation, then optional denoise, then optional deskew, then persist. -/
def specClaimedTrace (deskew denoise auto_rotate : Bool) : List Stage :=
  [Stage.sGrayscale]
    ++ (if auto_rotate then [Stage.sAutoRotate] else [])
    ++ (if denoise then [Stage.sDenoise] else [])
    ++ (if deskew then [Stage.sDeskew] else [])
    ++ [Stage.sPersist]

/-! ### The fallback detector as the specification words it (for claim C5) -/

/-- The geometric fallback as the specification words it: keep only line
angles strictly inside the near-horizontal (80-100) or near-vertical
(260-280) bands, take their median, and return the quadrant 90/180/270
whose distance from the median is at most 5 degrees, else 0; return 0 when
the image cannot be loaded or no qualifying lines are found. -/
def fallbackSpec (grayLoad : Bool) (houghAngles : List ℚ) : Int :=
  if grayLoad = false then 0
  else
    let qualifying :=
      houghAngles.filter (fun a => (80 < a ∧ a < 100) ∨ (260 < a ∧ a < 280))
    if qualifying = [] then 0
    else
      let m := npMedian qualifying
      if |m - 90| ≤ 5 then 90
      else if |m - 180| ≤ 5 then 180
      else if |m - 270| ≤ 5 then 270
      else 0

/-! ### Concrete fixtures used by counterexamples and witnesses -/

/-- A page on which every external call succeeds: OSD reports `Rotate: 0`,
the image loads, and no foreground pixel is found. -/
def okPage : PageSpec :=
  { osd := OsdOut.rot 0, grayLoad := true, houghAngles := [], colorLoad := true,
    hasForeground := false, rectAngle := 0 }

/-- A page whose image file cannot be loaded by any OpenCV call. -/
def badPage : PageSpec :=
  { osd := OsdOut.fail, grayLoad := false, houghAngles := [], colorLoad := false,
    hasForeground := false, rectAngle := 0 }

/-- A page with foreground pixels whose minimum-area rectangle reports
angle -60. -/
def fgPage : PageSpec :=
  { osd := OsdOut.rot 0, grayLoad := true, houghAngles := [], colorLoad := true,
    hasForeground := true, rectAngle := -60 }

/-- A page on which Tesseract OSD reports `Rotate: 90`. -/
def osdPage : PageSpec :=
  { osd := OsdOut.rot 90, grayLoad := true, houghAngles := [], colorLoad := true,
    hasForeground := false, rectAngle := 0 }

/-- The default configuration of `main.main`: preprocessing, deskew and
denoise all enabled. -/
def cfg0 : Config :=
  { output_dir := "./output".toList, enable_preprocessing := true,
    deskew := true, denoise := true }

/-- A document whose single page processes cleanly and whose OCR call
succeeds. -/
def envOk : Env := { rasterOk := true, pages := [okPage], ocrOk := true }

/-- A document whose single page processes cleanly but whose OCR call
fails. -/
def envOcrFail : Env := { rasterOk := true, pages := [okPage], ocrOk := false }

/-- A document whose single rasterized page cannot be loaded, so the page
pipeline raises. -/
def envPageFail : Env := { rasterOk := true, pages := [badPage], ocrOk := true }

/-! ### Helper lemmas about the Python string operations -/

/-- When `".pdf"` does not occur in `s`, Python replace on `s ++ ".pdf"`
rewrites exactly the final extension. -/
theorem replacePdf_append (rep : Chars) (s : Chars) (h : containsPdf s = false) :
    replacePdf rep (s ++ pdfExt) = s ++ rep := by
  induction s with
  | nil =>
    simp [pdfExt, replacePdf]
  | cons a rest ih =>
    rcases rest with _ | ⟨b, _ | ⟨c, _ | ⟨d, rest2⟩⟩⟩
    · simp only [List.cons_append, List.nil_append, pdfExt, replacePdf]
      rw [if_neg (fun hc => absurd hc.2.1 (by decide))]
      simp [pdfExt]
    · simp only [List.cons_append, List.nil_append, pdfExt, replacePdf]
      rw [if_neg (fun hc => absurd hc.2.2.1 (by decide))]
      simp [pdfExt]
    · simp only [List.cons_append, List.nil_append, pdfExt, replacePdf]
      rw [if_neg (fun hc => absurd hc.2.2.2 (by decide))]
      simp [pdfExt]
    · have h2 : containsPdf (b :: c :: d :: rest2) = false := by
        simp only [containsPdf, Bool.or_eq_false_iff] at h
        exact h.2
      have hc : ¬(a = '.' ∧ b = 'p' ∧ c = 'd' ∧ d = 'f') := by
        rintro ⟨ha, hb, hcc, hd⟩
        subst ha; subst hb; subst hcc; subst hd
        simp [containsPdf] at h
      simp only [List.cons_append, replacePdf]
      rw [if_neg hc]
      simpa using ih h2

/-- A filename built as `stem ++ ".pdf"` passes the eligibility filter of
`main.main`. -/
theorem eligible_append (stem : Chars) : eligible (stem ++ pdfExt) = true := by
  have h2 : lowerChars (stem ++ pdfExt) = lowerChars stem ++ pdfExt := by
    simp only [lowerChars, List.map_append]
    rw [show List.map Char.toLower pdfExt = pdfExt from by decide]
  simp only [eligible, h2, decide_eq_true_eq]
  exact List.suffix_append _ _

/-- `os.path.basename` is the identity on slash-free names. -/
theorem basename_of_noSlash (p : Chars) (h : '/' ∉ p) : basename p = p := by
  unfold basename
  rw [List.takeWhile_eq_self_iff.mpr]
  · exact List.reverse_reverse p
  · intro a ha
    simp only [ne_eq, decide_eq_true_eq]
    intro hEq
    exact h (by simpa [hEq] using List.mem_reverse.mp ha)

/-! ### Claims -/

/-- C1: the claim says the bytes of the original input document are never
modified: no operation of the core ever opens an input document for
writing.  The code violates this: the file `DOC.PDF` passes the
eligibility filter (`lower().endswith(".pdf")`) but the case-sensitive
`replace(".pdf", "_preprocessed.pdf")` leaves its name unchanged, so on a
run with preprocessing enabled the intermediate document is written to the
input path itself — the original is opened for writing, overwritten, and
then deleted by cleanup. -/
theorem c1_original_opened_for_writing :
    eligible "DOC.PDF".toList = true
    ∧ P.real (replacePdf preRep "DOC.PDF".toList) = P.real "DOC.PDF".toList
    ∧ (P.real "DOC.PDF".toList) ∈ (process_file "DOC.PDF".toList cfg0 envOk).writes
    ∧ (P.real "DOC.PDF".toList) ∈ (process_file "DOC.PDF".toList cfg0 envOk).deletes
    ∧ (process_file "DOC.PDF".toList cfg0 envOk).success = true := by decide

/-- C2 counterexample: on a page where every stage runs, the executed
stage order starts with orientation detection and coarse rotation and only
then converts to grayscale, so it differs from the order the claim states
(grayscale first). -/
theorem c2_counterexample :
    (process_single_image (P.rasterTmp 0) 0 okPage true true true).2
      = Except.ok (P.procTmp 0,
          Img.denoised (Img.gray (Img.loaded (P.rasterTmp 0))) 30 7 21,
          [Stage.sAutoRotate, Stage.sGrayscale, Stage.sDenoise, Stage.sDeskew,
           Stage.sPersist])
    ∧ ([Stage.sAutoRotate, Stage.sGrayscale, Stage.sDenoise, Stage.sDeskew,
        Stage.sPersist] : List Stage)
      ≠ specClaimedTrace true true true :=
  ⟨rfl, by decide⟩

/-- C2 (amended): for every page and every setting of the optional-stage
flags, a successful run of the per-page pipeline executes its stages in
the fixed order: (if enabled) orientation detection with coarse rotation
first, then grayscale conversion, then (if enabled) denoising, then (if
enabled) deskewing, then persisting the result as a new artifact. -/
theorem c2_stage_order (orig : P) (i : Nat) (p : PageSpec) (dk dn ar : Bool)
    (out : P × Img × List Stage)
    (h : (process_single_image orig i p dk dn ar).2 = Except.ok out) :
    out.2.2 = (if ar then [Stage.sAutoRotate] else [])
      ++ [Stage.sGrayscale]
      ++ (if dn then [Stage.sDenoise] else [])
      ++ (if dk then [Stage.sDeskew] else [])
      ++ [Stage.sPersist] := by
  cases ar <;> cases dn <;> cases dk <;>
    (simp only [process_single_image] at h
     split at h <;> (try split at h) <;> (try split at h) <;>
       first
         | contradiction
         | (have h3 := Except.ok.inj h
            subst h3
            simp))

/-- C2 witness: the amended order theorem applied to a concrete page with
all stages enabled. -/
theorem c2_stage_order_witness :
    ([Stage.sAutoRotate, Stage.sGrayscale, Stage.sDenoise, Stage.sDeskew,
      Stage.sPersist] : List Stage)
      = (if true then [Stage.sAutoRotate] else []) ++ [Stage.sGrayscale]
        ++ (if true then [Stage.sDenoise] else [])
        ++ (if true then [Stage.sDeskew] else []) ++ [Stage.sPersist] :=
  c2_stage_order (P.rasterTmp 0) 0 okPage true true true
    (P.procTmp 0, Img.denoised (Img.gray (Img.loaded (P.rasterTmp 0))) 30 7 21,
     [Stage.sAutoRotate, Stage.sGrayscale, Stage.sDenoise, Stage.sDeskew,
      Stage.sPersist]) rfl


/-- C4: for every page, assuming the external OSD engine only ever
reports a rotation that is a multiple of 90 degrees (its documented
contract), the orientation detector returns an angle in {0, 90, 180,
270}; and whenever the primary detector succeeds reporting `r`, the
returned angle is `(360 - r) % 360`. -/
theorem c4_rotation_range (p : PageSpec)
    (hosd : ∀ r, p.osd = OsdOut.rot r → r % 90 = 0) :
    (detect_rotation p = 0 ∨ detect_rotation p = 90 ∨ detect_rotation p = 180 ∨
      detect_rotation p = 270)
    ∧ (∀ r, p.osd = OsdOut.rot r → detect_rotation p = (360 - r) % 360) := by
  constructor
  · cases hp : p.osd with
    | rot r =>
      have h90 := hosd r hp
      simp only [detect_rotation, hp]
      omega
    | noRot => simp [detect_rotation, hp]
    | fail =>
      simp only [detect_rotation, hp]
      split_ifs <;> simp
  · intro r hp
    simp [detect_rotation, hp]

/-- C4 witness: the range theorem applied to a page on which OSD reports
`Rotate: 90`. -/
theorem c4_rotation_range_witness :
    (detect_rotation osdPage = 0 ∨ detect_rotation osdPage = 90 ∨
      detect_rotation osdPage = 180 ∨ detect_rotation osdPage = 270)
    ∧ (∀ r, osdPage.osd = OsdOut.rot r →
        detect_rotation osdPage = (360 - r) % 360) :=
  c4_rotation_range osdPage (by intro r hr; injection hr with h2; omega)

/-- C5: whenever the primary detector fails, the detector computes
exactly the fallback the specification describes: band-filter the line
angles, take the median, bucket to 90/180/270 within a tolerance of 5
degrees, else 0; and 0 when the image cannot be loaded or no qualifying
lines exist. -/
theorem c5_fallback (p : PageSpec) (h : p.osd = OsdOut.fail) :
    detect_rotation p = fallbackSpec p.grayLoad p.houghAngles := by
  have e1 : ∀ m : ℚ, (|m - 90| ≤ 5) = (85 ≤ m ∧ m ≤ 95) := by
    intro m
    rw [abs_sub_le_iff, eq_iff_iff]
    constructor <;> rintro ⟨h1, h2⟩ <;> constructor <;> linarith
  have e2 : ∀ m : ℚ, (|m - 180| ≤ 5) = (175 ≤ m ∧ m ≤ 185) := by
    intro m
    rw [abs_sub_le_iff, eq_iff_iff]
    constructor <;> rintro ⟨h1, h2⟩ <;> constructor <;> linarith
  have e3 : ∀ m : ℚ, (|m - 270| ≤ 5) = (265 ≤ m ∧ m ≤ 275) := by
    intro m
    rw [abs_sub_le_iff, eq_iff_iff]
    constructor <;> rintro ⟨h1, h2⟩ <;> constructor <;> linarith
  cases hg : p.grayLoad
  · simp [detect_rotation, h, fallbackSpec, hg]
  · simp only [detect_rotation, h, fallbackSpec, bandFilter, hg, e1, e2, e3,
      Bool.true_eq_false, if_false, ite_not, ne_eq]
    rfl

/-- C5 witness: the fallback equivalence applied to a page whose image
cannot be loaded. -/
theorem c5_fallback_witness :
    badPage.osd = OsdOut.fail
    ∧ detect_rotation badPage = fallbackSpec badPage.grayLoad badPage.houghAngles :=
  ⟨rfl, c5_fallback badPage rfl⟩

/-- C6: the deskew step rotates by `-(90 + a)` when the minimum-area
rectangle reports `a < -45` and by `-a` otherwise, and is a no-op on a
page with no foreground pixels. -/
theorem c6_deskew_rule (g : Img) (p : PageSpec) :
    (p.hasForeground = false → deskewStage g p = g)
    ∧ (p.hasForeground = true →
        deskewStage g p = Img.warped g
          (if p.rectAngle < -45 then -(90 + p.rectAngle) else -p.rectAngle)) := by
  constructor <;> intro h <;> simp [deskewStage, deskewAngleOf, h]

/-- C6 witness: the deskew rule applied to a page without foreground
pixels and to one whose rectangle reports angle -60. -/
theorem c6_deskew_rule_witness :
    deskewStage (Img.gray (Img.loaded (P.rasterTmp 0))) okPage
      = Img.gray (Img.loaded (P.rasterTmp 0))
    ∧ deskewStage (Img.gray (Img.loaded (P.rasterTmp 0))) fgPage
        = Img.warped (Img.gray (Img.loaded (P.rasterTmp 0)))
            (if fgPage.rectAngle < -45 then -(90 + fgPage.rectAngle)
             else -fgPage.rectAngle) :=
  ⟨(c6_deskew_rule _ okPage).1 rfl, (c6_deskew_rule _ fgPage).2 rfl⟩


/-- C7: when the sequence of decodable page artifacts is empty (input
list empty, or no listed image can be opened), the assembler raises an
assembly error and writes no file at the destination path. -/
theorem c7_assembly_guard (imagePaths : List P) (decodable : P → Bool) (outPath : P)
    (h : imagePaths.filter decodable = []) :
    (images_to_pdf imagePaths decodable outPath).1 = []
    ∧ (images_to_pdf imagePaths decodable outPath).2.isSome = true := by
  unfold images_to_pdf
  rcases imagePaths with _ | ⟨a, rest⟩
  · simp
  · rw [if_neg (by simp)]
    simp [h]

/-- C7 witness: the assembly guard applied to a one-element list whose
image cannot be decoded. -/
theorem c7_assembly_guard_witness :
    (images_to_pdf [P.rasterTmp 0] (fun _ => false) (P.real "o.pdf".toList)).1 = []
    ∧ (images_to_pdf [P.rasterTmp 0] (fun _ => false)
        (P.real "o.pdf".toList)).2.isSome = true :=
  c7_assembly_guard [P.rasterTmp 0] (fun _ => false) (P.real "o.pdf".toList) (by decide)

/-- Progress advances exactly once per submitted task, regardless of
outcome. -/
theorem runBatch_progress (cfg : Config) (jobs : List DocJob) :
    (runBatch jobs cfg).1 = jobs.length := by
  induction jobs with
  | nil => rfl
  | cons j rest ih => simp [runBatch, ih]

/-- The failure count equals the number of submitted documents whose run
failed. -/
theorem runBatch_failures (cfg : Config) (jobs : List DocJob) :
    (runBatch jobs cfg).2.2
      = (jobs.filter (fun j => (process_file j.name cfg j.env).success = false)).length := by
  induction jobs with
  | nil => rfl
  | cons j rest ih =>
    simp only [runBatch, List.filter_cons]
    cases hs : (process_file j.name cfg j.env).success <;> simp [hs, ih] <;> omega

/-- Every task reaches a terminal state: successes and failures add up to
the number of submitted documents. -/
theorem runBatch_total (cfg : Config) (jobs : List DocJob) :
    (runBatch jobs cfg).2.1 + (runBatch jobs cfg).2.2 = jobs.length := by
  induction jobs with
  | nil => rfl
  | cons j rest ih =>
    simp only [runBatch, List.length_cons]
    cases hs : (process_file j.name cfg j.env).success <;> simp [hs] <;> omega

/-- C8: in a batch where exactly one document fails, all tasks are
processed to a terminal state, the progress counter advances once per
task (successes and failures equally), and the batch yields D-1 successes
and one logged failure. -/
theorem c8_fault_isolation (jobs : List DocJob) (cfg : Config)
    (h : (jobs.filter
          (fun j => (process_file j.name cfg j.env).success = false)).length = 1) :
    (runBatch jobs cfg).1 = jobs.length
    ∧ (runBatch jobs cfg).2.1 = jobs.length - 1
    ∧ (runBatch jobs cfg).2.2 = 1 := by
  have hp := runBatch_progress cfg jobs
  have hf := runBatch_failures cfg jobs
  have ht := runBatch_total cfg jobs
  rw [h] at hf
  exact ⟨hp, by omega, hf⟩

/-- A three-document batch whose middle document has an unreadable page. -/
def jobsW : List DocJob :=
  [⟨"a.pdf".toList, envOk⟩, ⟨"b.pdf".toList, envPageFail⟩, ⟨"c.pdf".toList, envOk⟩]

/-- C8 witness: the fault-isolation theorem applied to the concrete
three-document batch with one corrupted document. -/
theorem c8_fault_isolation_witness :
    (runBatch jobsW cfg0).1 = 3
    ∧ (runBatch jobsW cfg0).2.1 = 2
    ∧ (runBatch jobsW cfg0).2.2 = 1 :=
  c8_fault_isolation jobsW cfg0 (by decide)


/-- The assembler writes exactly the output document when it reports no
error. -/
theorem images_to_pdf_of_none (paths : List P) (dec : P → Bool) (out : P)
    (h : (images_to_pdf paths dec out).2 = none) :
    (images_to_pdf paths dec out).1 = [out] := by
  unfold images_to_pdf at h ⊢
  split_ifs at h ⊢ <;> simp_all

/-- On an error-free page loop in which every detected rotation is 0, the
accumulated `temp_files` entries are exactly the files the loop wrote plus
the rasterized page images it consumed. -/
theorem pageLoop_temp_iff (dk dn : Bool) (pages : List PageSpec) :
    ∀ (i : Nat),
      (∀ p ∈ pages, detect_rotation p = 0) →
      (pageLoop pages i dk dn).2.2.1 = none →
      ∀ x, x ∈ (pageLoop pages i dk dn).2.1 ↔
        (x ∈ (pageLoop pages i dk dn).1 ∨
         x ∈ (List.range' i pages.length).map P.rasterTmp) := by
  induction pages with
  | nil =>
    intro i h1 h2 x
    simp [pageLoop]
  | cons p rest ih =>
    intro i h1 h2 x
    have hrot : detect_rotation p = 0 := h1 p (by simp)
    have hrest : ∀ q ∈ rest, detect_rotation q = 0 := fun q hq => h1 q (by simp [hq])
    cases hcl : p.colorLoad
    · exfalso
      simp [pageLoop, process_single_image, rotate_image, hrot, hcl] at h2
    · have hrec := ih (i + 1) hrest
      simp [pageLoop, process_single_image, rotate_image, hrot, hcl] at h2 ⊢
      have hrec2 := hrec h2 x
      simp at hrec2
      constructor
      · rintro (h | h | h)
        · exact Or.inl (Or.inl h)
        · exact Or.inr ⟨i, ⟨le_refl i, by omega⟩, h.symm⟩
        · rcases (hrec2.mp h) with h3 | ⟨a, ⟨ha1, ha2⟩, ha3⟩
          · exact Or.inl (Or.inr h3)
          · exact Or.inr ⟨a, ⟨by omega, by omega⟩, ha3⟩
      · rintro ((h | h) | ⟨a, ⟨ha1, ha2⟩, ha3⟩)
        · exact Or.inl h
        · exact Or.inr (Or.inr (hrec2.mpr (Or.inl h)))
        · by_cases hai : a = i
          · subst hai
            exact Or.inr (Or.inl ha3.symm)
          · exact Or.inr (Or.inr (hrec2.mpr (Or.inr ⟨a, ⟨by omega, by omega⟩, ha3⟩)))

/-- C3 counterexample: a document task that reaches the terminal failure
state (the OCR call raised) with an intermediate artifact written and
nothing deleted: the exception handler of `process_file` performs no
cleanup, so artifacts outlive the failed task. -/
theorem c3_counterexample :
    (P.rasterTmp 0) ∈ (process_file "a.pdf".toList cfg0 envOcrFail).writes
    ∧ (process_file "a.pdf".toList cfg0 envOcrFail).deletes = []
    ∧ (process_file "a.pdf".toList cfg0 envOcrFail).success = false := by decide

/-- C3 (amended): cleanup runs only on the success path.  On a failed run
nothing is deleted; on a successful run in which no page received a
nonzero coarse rotation, the deleted files are exactly the intermediate
artifacts written (rasterized pages, preprocessed pages, and the
intermediate preprocessed document). -/
theorem c3_cleanup (pdf : Chars) (cfg : Config) (env : Env) :
    ((process_file pdf cfg env).success = false →
      (process_file pdf cfg env).deletes = [])
    ∧ ((process_file pdf cfg env).success = true →
        (∀ p ∈ env.pages, detect_rotation p = 0) →
        ∀ x, x ∈ (process_file pdf cfg env).deletes ↔
          x ∈ (process_file pdf cfg env).writes) := by
  constructor
  · intro hs
    unfold process_file at hs ⊢
    cases hpre : cfg.enable_preprocessing <;>
      cases hra : env.rasterOk <;>
        cases hocr : env.ocrOk <;>
          rcases hLoop : (pageLoop env.pages 0 cfg.deskew cfg.denoise).2.2.1 with _ | e2 <;>
            rcases hAsm : (images_to_pdf (pageLoop env.pages 0 cfg.deskew cfg.denoise).2.2.2
                (fun _ => true) (P.real (replacePdf preRep pdf))).2 with _ | a2 <;>
              simp_all
  · intro hs hrot x
    unfold process_file at hs ⊢
    cases hpre : cfg.enable_preprocessing
    · cases hocr : env.ocrOk <;> simp_all [cleanup_temp_files]
    · cases hra : env.rasterOk
      · simp_all
      · rcases hLoop : (pageLoop env.pages 0 cfg.deskew cfg.denoise).2.2.1 with _ | e2
        · rcases hAsm : (images_to_pdf (pageLoop env.pages 0 cfg.deskew cfg.denoise).2.2.2
              (fun _ => true) (P.real (replacePdf preRep pdf))).2 with _ | a2
          · cases hocr : env.ocrOk
            · simp_all
            · have hasm1 := images_to_pdf_of_none _ _ _ hAsm
              simp_all [cleanup_temp_files, pdf_to_images, List.range_eq_range']
              have hiff := pageLoop_temp_iff cfg.deskew cfg.denoise env.pages 0 hrot hLoop x
              simp at hiff
              rw [hiff]
              constructor
              · rintro ((hA | hB) | hC)
                · exact Or.inr (Or.inl hA)
                · exact Or.inl hB
                · exact Or.inr (Or.inr hC)
              · rintro (hB | hA | hC)
                · exact Or.inl (Or.inr hB)
                · exact Or.inl (Or.inl hA)
                · exact Or.inr hC
          · simp_all
        · simp_all

/-- C3 witness: the amended cleanup theorem applied to a successful
single-page run, checked at the preprocessed page artifact. -/
theorem c3_cleanup_witness :
    (P.procTmp 0) ∈ (process_file "a.pdf".toList cfg0 envOk).deletes ↔
      (P.procTmp 0) ∈ (process_file "a.pdf".toList cfg0 envOk).writes :=
  (c3_cleanup "a.pdf".toList cfg0 envOk).2 (by decide) (by decide) (P.procTmp 0)

/-- C9 counterexample: two documents with different identities whose
failing page raises the same error value, whose only payload is the page
image path: the raised error does not carry the document id. -/
theorem c9_counterexample :
    (process_file "a.pdf".toList cfg0 envPageFail).pageError
      = (process_file "b.pdf".toList cfg0 envPageFail).pageError
    ∧ (process_file "a.pdf".toList cfg0 envPageFail).pageError
      = some (PageErr.cannotLoad (P.rasterTmp 0))
    ∧ "a.pdf".toList ≠ "b.pdf".toList := by decide

/-- C9 (amended): on a page stage failure the pipeline raises an error
that identifies the failing page only by its image path; the document
identity is attached by the document-level handler, which catches the
error, logs the failure against the document, and marks the task
failed. -/
theorem c9_page_error (pdf : Chars) (cfg : Config) (env : Env) (e : PageErr)
    (h : (process_file pdf cfg env).pageError = some e) :
    (∃ path, e = PageErr.cannotLoad path)
    ∧ (process_file pdf cfg env).failedDoc = some pdf
    ∧ (process_file pdf cfg env).success = false := by
  constructor
  · cases e with
    | cannotLoad path => exact ⟨path, rfl⟩
  · unfold process_file at h ⊢
    cases hpre : cfg.enable_preprocessing <;>
      cases hra : env.rasterOk <;>
        cases hocr : env.ocrOk <;>
          rcases hLoop : (pageLoop env.pages 0 cfg.deskew cfg.denoise).2.2.1 with _ | e2 <;>
            rcases hAsm : (images_to_pdf (pageLoop env.pages 0 cfg.deskew cfg.denoise).2.2.2
                (fun _ => true) (P.real (replacePdf preRep pdf))).2 with _ | a2 <;>
              simp_all

/-- C9 witness: the amended page-error theorem applied to a document whose
single page cannot be loaded. -/
theorem c9_page_error_witness :
    (∃ path, PageErr.cannotLoad (P.rasterTmp 0) = PageErr.cannotLoad path)
    ∧ (process_file "a.pdf".toList cfg0 envPageFail).failedDoc = some "a.pdf".toList
    ∧ (process_file "a.pdf".toList cfg0 envPageFail).success = false :=
  c9_page_error "a.pdf".toList cfg0 envPageFail
    (PageErr.cannotLoad (P.rasterTmp 0)) (by decide)

/-- C10 counterexample: the eligible input `a.pdf.pdf` (named `name.pdf`
with `name = "a.pdf"`) is written not as `a.pdf_ocr.pdf` but as
`a_ocr.pdf_ocr.pdf`, because Python replace rewrites every occurrence of
`".pdf"`. -/
theorem c10_counterexample :
    eligible "a.pdf.pdf".toList = true
    ∧ (process_file "a.pdf.pdf".toList cfg0 envOk).output
        = some (P.real (joinPath cfg0.output_dir "a_ocr.pdf_ocr.pdf".toList))
    ∧ (process_file "a.pdf.pdf".toList cfg0 envOk).output
        ≠ some (P.real (joinPath cfg0.output_dir "a.pdf_ocr.pdf".toList)) := by decide

/-- C10 (amended): for every eligible input `name.pdf` in which `".pdf"`
occurs only as the final extension, every successful run — with
preprocessing enabled or disabled — writes the output as `name_ocr.pdf`
in the output location; and when preprocessing is enabled the
intermediate document `name_preprocessed.pdf` is a tracked temporary
artifact: it is among the files written and among the files deleted by
cleanup, not a deliverable. -/
theorem c10_naming (stem : Chars) (cfg : Config) (env : Env)
    (hp : containsPdf stem = false) (hslash : '/' ∉ stem)
    (hs : (process_file (stem ++ pdfExt) cfg env).success = true) :
    eligible (stem ++ pdfExt) = true
    ∧ (process_file (stem ++ pdfExt) cfg env).output
        = some (P.real (joinPath cfg.output_dir (stem ++ ocrRep)))
    ∧ (cfg.enable_preprocessing = true →
        (P.real (stem ++ preRep)) ∈ (process_file (stem ++ pdfExt) cfg env).deletes
        ∧ (P.real (stem ++ preRep)) ∈ (process_file (stem ++ pdfExt) cfg env).writes) := by
  have hb : basename (stem ++ pdfExt) = stem ++ pdfExt := by
    apply basename_of_noSlash
    intro hmem
    rcases List.mem_append.mp hmem with h1 | h2
    · exact hslash h1
    · revert h2; decide
  have hocrrep : replacePdf ocrRep (basename (stem ++ pdfExt)) = stem ++ ocrRep := by
    rw [hb]; exact replacePdf_append ocrRep stem hp
  have hprerep : replacePdf preRep (stem ++ pdfExt) = stem ++ preRep :=
    replacePdf_append preRep stem hp
  refine ⟨eligible_append stem, ?_⟩
  unfold process_file at hs ⊢
  cases hpre : cfg.enable_preprocessing
  · cases hocr : env.ocrOk <;> simp_all
  · cases hra : env.rasterOk
    · simp_all
    · rcases hLoop : (pageLoop env.pages 0 cfg.deskew cfg.denoise).2.2.1 with _ | e2
      · rcases hAsm : (images_to_pdf (pageLoop env.pages 0 cfg.deskew cfg.denoise).2.2.2
            (fun _ => true) (P.real (replacePdf preRep (stem ++ pdfExt)))).2 with _ | a2
        · cases hocr : env.ocrOk
          · simp_all
          · have hasm1 := images_to_pdf_of_none _ _ _ hAsm
            simp_all [cleanup_temp_files]
        · simp_all
      · simp_all

/-- C10 witness: the amended naming theorem applied to a successful run on
the input `doc.pdf` with preprocessing enabled. -/
theorem c10_naming_witness :
    eligible ("doc".toList ++ pdfExt) = true
    ∧ (process_file ("doc".toList ++ pdfExt) cfg0 envOk).output
        = some (P.real (joinPath cfg0.output_dir ("doc".toList ++ ocrRep)))
    ∧ (cfg0.enable_preprocessing = true →
        (P.real ("doc".toList ++ preRep))
          ∈ (process_file ("doc".toList ++ pdfExt) cfg0 envOk).deletes
        ∧ (P.real ("doc".toList ++ preRep))
          ∈ (process_file ("doc".toList ++ pdfExt) cfg0 envOk).writes) :=
  c10_naming "doc".toList cfg0 envOk (by decide) (by decide) (by decide)

end Ocrex
